import Mathlib

/- Shallow embedding of the opcode layer of the smali_emulator repository
   (file src/smali/opcodes.py).  Each `op_*_eval` definition translates the
   `eval` static method of the Python class of the same name; `OpCode.parse`
   translates `OpCode.parse`; `OpCode.get_int_value` translates
   `OpCode.get_int_value`.  The regular expressions used by the handlers are
   transcribed into a small executable matcher (`reM` / `reSearch`) that
   implements the Python `re` constructs actually occurring in those
   patterns: literal characters, the classes `.`, `\d`, `\s`, `[a-z]`,
   `[\-a-z]`, greedy `?`, `*`, `+` with backtracking, and capturing groups.
   All patterns in scope start with `^` and are used via `re.search`, so a
   match is only attempted at the start of the line; `reSearch` therefore
   matches an (unanchored-tail) prefix of the input.

   The VM object itself (vm.py) is not part of the sources; the few pieces
   of it that the handlers touch (register mapping, `goto`, `exception`,
   `invoke`) are modelled from the specification and marked as such. -/

namespace SmaliEmu

/-- Python whitespace at the ASCII level: the characters matched by `\s`
and stripped by `str.strip()` (space, tab, newline, carriage return,
vertical tab, form feed). -/
def isPySpace (c : Char) : Bool :=
  c == ' ' || c == '\t' || c == '\n' || c == '\r' || c == '\x0b' || c == '\x0c'

/-- Python `str.strip()` on a character list: drop leading and trailing
whitespace. -/
def pyStripList (l : List Char) : List Char :=
  ((l.dropWhile isPySpace).reverse.dropWhile isPySpace).reverse

/-- Python `str.strip()`.  `OpCode.parse` applies it to every captured
group before handing the groups to the handler. -/
def pyStrip (s : String) : String :=
  String.mk (pyStripList s.data)

/-- Python `str.rstrip(c)` for a single strip character: remove every
trailing occurrence of `c`. -/
def pyRstripChar (l : List Char) (c : Char) : List Char :=
  (l.reverse.dropWhile (fun d => d == c)).reverse

/-- Exception values that the handler bodies can raise.  Each constructor
names the Python exception class raised at the corresponding place:
`zeroDivision` is `ZeroDivisionError` (a subclass of `ArithmeticError`,
surfaced by the emulator as Java's `ArithmeticException`), `indexError` is
`IndexError` (surfaced as `ArrayIndexOutOfBoundsException`), and so on.
`fatalError` stands for the diagnostic abort requested through
`vm.emu.fatal` (emulator code outside the sources, modelled from the
spec as an error outcome). -/
inductive Exc where
  | zeroDivision
  | indexError
  | typeError
  | valueError
  | assertionError
  | structError
  | fatalError
deriving DecidableEq, Repr

/-- Value of a decimal digit character, if it is one. -/
def digitVal (c : Char) : Option Nat :=
  if c.isDigit then some (c.toNat - 48) else none

/-- Value of a hexadecimal digit character, if it is one. -/
def hexVal (c : Char) : Option Nat :=
  if c.isDigit then some (c.toNat - 48)
  else if 'a' ≤ c ∧ c ≤ 'f' then some (c.toNat - 97 + 10)
  else if 'A' ≤ c ∧ c ≤ 'F' then some (c.toNat - 65 + 10)
  else none

/-- Accumulate digits of the given base; `none` on a non-digit. -/
def digitsAux (dv : Char → Option Nat) (base : Nat) : List Char → Nat → Option Nat
  | [], acc => some acc
  | c :: rest, acc =>
    match dv c with
    | some d => digitsAux dv base rest (acc * base + d)
    | none => none

/-- Parse a non-empty run of decimal digits. -/
def decDigits (l : List Char) : Option Nat :=
  match l with
  | [] => none
  | _ => digitsAux digitVal 10 l 0

/-- Parse a non-empty run of hexadecimal digits. -/
def hexDigits (l : List Char) : Option Nat :=
  match l with
  | [] => none
  | _ => digitsAux hexVal 16 l 0

/-- Model of `ast.literal_eval` restricted to the integer literals the
emulator feeds it: optional surrounding whitespace, an optional single
sign, then either `0x`/`0X` hexadecimal or decimal digits.  Anything else
raises `ValueError`.  The value is returned unchanged: `literal_eval`
performs no width truncation of any kind. -/
def literalEval (s : String) : Except Exc Int :=
  let l := pyStripList s.data
  let core : List Char → Except Exc Nat := fun l2 =>
    match l2 with
    | '0' :: 'x' :: rest =>
      match hexDigits rest with
      | some n => Except.ok n
      | none => Except.error Exc.valueError
    | '0' :: 'X' :: rest =>
      match hexDigits rest with
      | some n => Except.ok n
      | none => Except.error Exc.valueError
    | l3 =>
      match decDigits l3 with
      | some n => Except.ok n
      | none => Except.error Exc.valueError
  match l with
  | '-' :: rest =>
    match core rest with
    | Except.ok n => Except.ok (-(n : Int))
    | Except.error e => Except.error e
  | '+' :: rest =>
    match core rest with
    | Except.ok n => Except.ok (n : Int)
    | Except.error e => Except.error e
  | l4 =>
    match core l4 with
    | Except.ok n => Except.ok (n : Int)
    | Except.error e => Except.error e

/-- Model of Python `int(str)` in base 10: optional whitespace, optional
sign, then decimal digits only (no `0x` forms). -/
def pyIntStr (s : String) : Except Exc Int :=
  let l := pyStripList s.data
  match l with
  | '-' :: rest =>
    match decDigits rest with
    | some n => Except.ok (-(n : Int))
    | none => Except.error Exc.valueError
  | '+' :: rest =>
    match decDigits rest with
    | some n => Except.ok (n : Int)
    | none => Except.error Exc.valueError
  | l2 =>
    match decDigits l2 with
    | some n => Except.ok (n : Int)
    | none => Except.error Exc.valueError

/-- A register cell: the dynamically-typed values the handlers in scope
store into the register map (integers, strings, single characters kept as
their code point, arrays). -/
inductive Cell where
  | int (i : Int)
  | str (s : String)
  | char (code : Nat)
  | arr (elems : List Cell)

/-- A packed-switch table: `{first_value, cases}` as built by the parser
and looked up through `vm.packed_switches`. -/
structure SwitchTable where
  first_value : Int
  cases : List String
deriving DecidableEq, Repr

/-- VM state as seen by the opcode handlers.  `registers` models the
register mapping behind `vm[name]`; `pc`, `labels` and
`packed_switches` model the fields of the same names; `exceptions` is the
exception stack; `invocations` records the tuples handed to the
invocation bridge (most recent first). -/
structure VM where
  registers : String → Cell
  pc : Nat
  labels : String → Nat
  packed_switches : String → Option SwitchTable
  exceptions : List Exc
  invocations : List (String × String × String × List String)

/-- Register store `vm[name] = v`. -/
def setReg (vm : VM) (name : String) (v : Cell) : VM :=
  { vm with registers := fun m => if m = name then v else vm.registers m }

/-- Modelled from the spec: `vm.exception(e)` delivers an emulated
exception by pushing it onto the VM exception stack
("pushed when an exception is raised and popped by move-exception"). -/
def vmException (vm : VM) (e : Exc) : VM :=
  { vm with exceptions := e :: vm.exceptions }

/-- Modelled from the spec: `vm.goto(label)` sets the program counter to
the line index bound to the label in the resolved label table. -/
def vmGoto (vm : VM) (label : String) : VM :=
  { vm with pc := vm.labels label }

/-- Modelled from the spec: `vm.invoke(this, klass, method, args)` hands
the tuple `(this_ref, class, method_sig, arg_refs)` to the built-in
invocation bridge; we record the tuple. -/
def vmInvoke (vm : VM) (this klass method : String) (args : List String) : VM :=
  { vm with invocations := (this, klass, method, args) :: vm.invocations }

/-- Character classes occurring in the handler regexes. -/
inductive CharClass where
  | anyChar
  | digit
  | space
  | lower
  | lowerDash
deriving DecidableEq, Repr

/-- Whether a character belongs to a class: `anyChar` is `.` (anything but
newline), `digit` is `\d`, `space` is `\s`, `lower` is `[a-z]`,
`lowerDash` is `[\-a-z]`.  The handler inputs are ASCII lines, so the
ASCII readings of `\d` and `\s` are faithful here. -/
def charMatches (p : CharClass) (c : Char) : Bool :=
  match p with
  | CharClass.anyChar => c != '\n'
  | CharClass.digit => c.isDigit
  | CharClass.space => isPySpace c
  | CharClass.lower => c.isLower
  | CharClass.lowerDash => c == '-' || c.isLower

/-- Regular expressions: the fragment used by the opcode patterns.
`opt`, `star` and `plus` are greedy with backtracking, as in Python;
`group` is a capturing group. -/
inductive RE where
  | eps
  | ch (c : Char)
  | cls (p : CharClass)
  | cat (a b : RE)
  | opt (a : RE)
  | star (a : RE)
  | plus (a : RE)
  | group (a : RE)
deriving DecidableEq, Repr

/-- Structural size of a regex, used to compute a sufficient fuel bound. -/
def reSize : RE → Nat
  | RE.eps => 1
  | RE.ch _ => 1
  | RE.cls _ => 1
  | RE.cat a b => reSize a + reSize b + 1
  | RE.opt a => reSize a + 1
  | RE.star a => reSize a + 1
  | RE.plus a => reSize a + 1
  | RE.group a => reSize a + 1

/-- Backtracking matcher in continuation-passing style.  `k` receives the
unconsumed suffix and returns the captures of the remainder of the
pattern; a `group` node prepends its captured substring, so the final
list is in order of the opening parentheses (the patterns in scope have
no nested groups).  Greedy `opt`/`star` try the consuming alternative
first, which reproduces Python's leftmost-longest-with-backtracking
behaviour.  `fuel` bounds the nesting depth of the search and is chosen
large enough for every input (see `reSearch`). -/
def reM (fuel : Nat) (r : RE) (s : List Char) (k : List Char → Option (List String)) :
    Option (List String) :=
  match fuel with
  | 0 => none
  | fuel2 + 1 =>
    match r with
    | RE.eps => k s
    | RE.ch c =>
      match s with
      | [] => none
      | c2 :: rest => if c2 = c then k rest else none
    | RE.cls p =>
      match s with
      | [] => none
      | c2 :: rest => if charMatches p c2 then k rest else none
    | RE.cat a b => reM fuel2 a s (fun s2 => reM fuel2 b s2 k)
    | RE.opt a => Option.orElse (reM fuel2 a s k) (fun _ => k s)
    | RE.star a =>
      Option.orElse
        (reM fuel2 a s (fun s2 =>
          if s2.length < s.length then reM fuel2 (RE.star a) s2 k else none))
        (fun _ => k s)
    | RE.plus a => reM fuel2 a s (fun s2 => reM fuel2 (RE.star a) s2 k)
    | RE.group a =>
      reM fuel2 a s (fun s2 =>
        (k s2).map (fun caps => String.mk (s.take (s.length - s2.length)) :: caps))

/-- Model of `self.expression.search(line)` for the handler patterns.  All
patterns in scope begin with `^` (and the module does not use MULTILINE),
so `re.search` can only match at position 0; a successful match returns
the list of captured groups `m.groups()`.  The trailing part of the line
is unconstrained, as with `search`. -/
def reSearch (r : RE) (s : String) : Option (List String) :=
  reM ((s.data.length + 2) * (reSize r + 2) + 8) r s.data (fun _ => some [])

/-- Concatenate a list of regexes in order. -/
def reSeq (l : List RE) : RE :=
  l.foldr RE.cat RE.eps

/-- A literal string of characters. -/
def rstr (s : String) : RE :=
  reSeq (s.data.map RE.ch)

/-- The fragment `(.+)`: a greedy capturing group of one or more
characters. -/
def dotPlusG : RE := RE.group (RE.plus (RE.cls CharClass.anyChar))

/-- The fragment `(.*)`: a greedy capturing group of zero or more
characters. -/
def dotStarG : RE := RE.group (RE.star (RE.cls CharClass.anyChar))

/-- The fragment `,\s*`: a comma followed by optional whitespace. -/
def commaWs : RE := RE.cat (RE.ch ',') (RE.star (RE.cls CharClass.space))

namespace OpCode

/-- Translation of `OpCode.get_int_value`: strip every trailing `t`
(byte marker), then every trailing `s` (short marker), then parse with
`ast.literal_eval`.  No width truncation happens anywhere. -/
def get_int_value (val : String) : Except Exc Int :=
  literalEval (String.mk (pyRstripChar (pyRstripChar val.data 't') 's'))

/-- Translation of `OpCode.parse`: run the compiled pattern against the
line; on no match return `False` and leave the VM alone; on a match,
strip each captured group and run the handler's `eval`; any exception the
handler raises is caught and forwarded to `vm.exception`, and `True` is
returned either way.  (The `trace` print is output-only and omitted.) -/
def parse (pattern : RE) (ev : VM → List String → Except Exc VM) (line : String)
    (vm : VM) : Bool × VM :=
  match reSearch pattern line with
  | none => (false, vm)
  | some gs =>
    match ev vm (gs.map pyStrip) with
    | Except.ok vm2 => (true, vm2)
    | Except.error e => (true, vmException vm e)

end OpCode

/-- Pattern of `op_Const`: the source regex is
`^const(?:/\d+)? (.+),\s*(.+)` — the literal text `const`, an optional
non-capturing `/` followed by one or more digits, a space, then the two
captured operands. -/
def constRE : RE :=
  reSeq [ rstr "const", RE.opt (RE.cat (RE.ch '/') (RE.plus (RE.cls CharClass.digit))),
    RE.ch ' ', dotPlusG, commaWs, dotPlusG ]

/-- Semantic action of `op_Const`: `vm[vx] = OpCode.get_int_value(lit)`.
A malformed literal raises inside `get_int_value` and is propagated. -/
def op_Const_eval (vm : VM) (vx lit : String) : Except Exc VM :=
  match OpCode.get_int_value lit with
  | Except.ok v => Except.ok (setReg vm vx (Cell.int v))
  | Except.error e => Except.error e

/-- Arity wrapper for `op_Const` (a group count other than two would be a
Python `TypeError` on the `eval` call). -/
def op_Const_evalL (vm : VM) : List String → Except Exc VM
  | [vx, lit] => op_Const_eval vm vx lit
  | _ => Except.error Exc.typeError

/-- Pattern of `op_DivInt`: `^div-int (.+),\s*(.+),\s*(.+)`. -/
def divIntRE : RE :=
  reSeq [ rstr "div-int ", dotPlusG, commaWs, dotPlusG, commaWs, dotPlusG ]

/-- Pattern of `op_RemInt`: `^rem-int (.+),\s*(.+),\s*(.+)`. -/
def remIntRE : RE :=
  reSeq [ rstr "rem-int ", dotPlusG, commaWs, dotPlusG, commaWs, dotPlusG ]

/-- Python `//` on two cells: floor division of two integers; a zero
divisor raises `ZeroDivisionError`; any non-integer operand raises
`TypeError`. -/
def cellFloorDiv (a b : Cell) : Except Exc Cell :=
  match a, b with
  | Cell.int x, Cell.int y =>
    if y = 0 then Except.error Exc.zeroDivision else Except.ok (Cell.int (Int.fdiv x y))
  | _, _ => Except.error Exc.typeError

/-- Python `%` on two cells: floor-convention remainder (the sign follows
the divisor); a zero divisor raises `ZeroDivisionError`; any non-integer
operand raises `TypeError`. -/
def cellFloorMod (a b : Cell) : Except Exc Cell :=
  match a, b with
  | Cell.int x, Cell.int y =>
    if y = 0 then Except.error Exc.zeroDivision else Except.ok (Cell.int (Int.fmod x y))
  | _, _ => Except.error Exc.typeError

/-- Semantic action of `op_DivInt`: `vm[vx] = vm[vy] // vm[vz]`.  The
division is evaluated before the assignment, so on a raise the
destination register is untouched. -/
def op_DivInt_eval (vm : VM) (vx vy vz : String) : Except Exc VM :=
  match cellFloorDiv (vm.registers vy) (vm.registers vz) with
  | Except.ok c => Except.ok (setReg vm vx c)
  | Except.error e => Except.error e

/-- Arity wrapper for `op_DivInt`. -/
def op_DivInt_evalL (vm : VM) : List String → Except Exc VM
  | [vx, vy, vz] => op_DivInt_eval vm vx vy vz
  | _ => Except.error Exc.typeError

/-- Semantic action of `op_RemInt`: `vm[vx] = vm[vy] % vm[vz]`. -/
def op_RemInt_eval (vm : VM) (vx vy vz : String) : Except Exc VM :=
  match cellFloorMod (vm.registers vy) (vm.registers vz) with
  | Except.ok c => Except.ok (setReg vm vx c)
  | Except.error e => Except.error e

/-- Arity wrapper for `op_RemInt`. -/
def op_RemInt_evalL (vm : VM) : List String → Except Exc VM
  | [vx, vy, vz] => op_RemInt_eval vm vx vy vz
  | _ => Except.error Exc.typeError

/-- Pattern of `op_Aget`: `^aget[\-a-z]* (.+),\s*(.+),\s*(.+)`. -/
def agetRE : RE :=
  reSeq [ rstr "aget", RE.star (RE.cls CharClass.lowerDash), RE.ch ' ',
    dotPlusG, commaWs, dotPlusG, commaWs, dotPlusG ]

/-- Python list read `l[i]`: indices in `[0, len)` read directly, indices
in `[-len, 0)` read from the end (`l[len + i]`), anything else raises
`IndexError`. -/
def pyListGet (l : List Cell) (i : Int) : Except Exc Cell :=
  if 0 ≤ i then
    match l.get? i.toNat with
    | some v => Except.ok v
    | none => Except.error Exc.indexError
  else
    match l.get? ((l.length : Int) + i).toNat with
    | some v => if -(l.length : Int) ≤ i then Except.ok v else Except.error Exc.indexError
    | none => Except.error Exc.indexError

/-- Python list write `l[i] = v`, with the same index convention as
`pyListGet`. -/
def pyListSet (l : List Cell) (i : Int) (v : Cell) : Except Exc (List Cell) :=
  if 0 ≤ i then
    if i < (l.length : Int) then Except.ok (l.set i.toNat v)
    else Except.error Exc.indexError
  else
    if -(l.length : Int) ≤ i then Except.ok (l.set ((l.length : Int) + i).toNat v)
    else Except.error Exc.indexError

/-- Semantic action of `op_Aget`: `arr = vm[vy]; idx = vm[vz];
vm[vx] = arr[idx]`, with Python's list indexing.  A non-array `vm[vy]` or
non-integer `vm[vz]` raises `TypeError` at the subscript. -/
def op_Aget_eval (vm : VM) (vx vy vz : String) : Except Exc VM :=
  match vm.registers vy, vm.registers vz with
  | Cell.arr l, Cell.int i =>
    match pyListGet l i with
    | Except.ok v => Except.ok (setReg vm vx v)
    | Except.error e => Except.error e
  | _, _ => Except.error Exc.typeError

/-- Arity wrapper for `op_Aget`. -/
def op_Aget_evalL (vm : VM) : List String → Except Exc VM
  | [vx, vy, vz] => op_Aget_eval vm vx vy vz
  | _ => Except.error Exc.typeError

/-- Pattern of `op_APut`: `^aput(?:-[a-z]+)? (.+),\s*(.+),\s*(.+)`. -/
def aputRE : RE :=
  reSeq [ rstr "aput", RE.opt (RE.cat (RE.ch '-') (RE.plus (RE.cls CharClass.lower))),
    RE.ch ' ', dotPlusG, commaWs, dotPlusG, commaWs, dotPlusG ]

/-- Python `int(cell)`: an integer cell is returned as is; a string cell
is parsed in base 10; anything else raises `TypeError`. -/
def pyIntOfCell (c : Cell) : Except Exc Int :=
  match c with
  | Cell.int i => Except.ok i
  | Cell.str s => pyIntStr s
  | _ => Except.error Exc.typeError

/-- Semantic action of `op_APut`: `idx = int(vm[vz]); arr = vm[vy];
val = vm[vx]; if len(arr) > idx: arr[idx] = val; elif idx == len(arr):
arr.append(val); vm[vy] = arr`.  The translation restricts `vm[vy]` to
array cells (the claims only concern arrays; in Python any other cell
either has no `len` or rejects item assignment, raising as well). -/
def op_APut_eval (vm : VM) (vx vy vz : String) : Except Exc VM :=
  match pyIntOfCell (vm.registers vz) with
  | Except.error e => Except.error e
  | Except.ok idx =>
    match vm.registers vy with
    | Cell.arr arr =>
      let val := vm.registers vx
      if (arr.length : Int) > idx then
        match pyListSet arr idx val with
        | Except.ok arr2 => Except.ok (setReg vm vy (Cell.arr arr2))
        | Except.error e => Except.error e
      else if idx = (arr.length : Int) then
        Except.ok (setReg vm vy (Cell.arr (arr ++ [ val ])))
      else
        Except.ok (setReg vm vy (Cell.arr arr))
    | _ => Except.error Exc.typeError

/-- Arity wrapper for `op_APut`. -/
def op_APut_evalL (vm : VM) : List String → Except Exc VM
  | [vx, vy, vz] => op_APut_eval vm vx vy vz
  | _ => Except.error Exc.typeError

/-- Pattern of `op_PackedSwitch`: `^packed-switch (.+),\s*(.+)`. -/
def packedSwitchRE : RE :=
  reSeq [ rstr "packed-switch ", dotPlusG, commaWs, dotPlusG ]

/-- Semantic action of `op_PackedSwitch`: look the table up with
`vm.packed_switches.get(table, {})`; with a missing table the defaulted
`.get('first_value')` yields `None` and the subtraction raises
`TypeError`.  With a resolved table, `case_idx = vm[vx] - first_value`;
when `case_idx` is outside `[0, len(cases))` the handler returns with the
VM untouched (fall through); otherwise it jumps to `cases[case_idx]`. -/
def op_PackedSwitch_eval (vm : VM) (vx table : String) : Except Exc VM :=
  match vm.registers vx with
  | Cell.int val =>
    match vm.packed_switches table with
    | none => Except.error Exc.typeError
    | some sw =>
      let case_idx : Int := val - sw.first_value
      if (sw.cases.length : Int) ≤ case_idx ∨ case_idx < 0 then
        Except.ok vm
      else
        match sw.cases.get? case_idx.toNat with
        | some lbl => Except.ok (vmGoto vm lbl)
        | none => Except.error Exc.indexError
  | _ => Except.error Exc.typeError

/-- Arity wrapper for `op_PackedSwitch`. -/
def op_PackedSwitch_evalL (vm : VM) : List String → Except Exc VM
  | [vx, table] => op_PackedSwitch_eval vm vx table
  | _ => Except.error Exc.typeError

/-- Pattern of `op_IntToType`: `^int-to-([a-z]+) (.+),\s*(.+)`; the first
captured group is the target type name. -/
def intToTypeRE : RE :=
  reSeq [ rstr "int-to-", RE.group (RE.plus (RE.cls CharClass.lower)), RE.ch ' ',
    dotPlusG, commaWs, dotPlusG ]

/-- Semantic action of `op_IntToType`.  For `char`:
`vm[vx] = chr(vm[vy] & 0xFFFF)` (a one-character cell).  For `byte`:
`vm[vx] = struct.pack('>i', vm[vy])[-1]` — `struct.pack` demands a value
representable as a signed 32-bit integer (else it raises `struct.error`),
and indexing the 4-byte big-endian packing at `[-1]` yields the low byte
as an unsigned integer in `[0, 256)` (Python 3 `bytes` indexing), that
is, `vm[vy] mod 256` with no sign extension.  Any other type name calls
`vm.emu.fatal`, modelled as a fatal error outcome. -/
def op_IntToType_eval (vm : VM) (ctype vx vy : String) : Except Exc VM :=
  if ctype = "char" then
    match vm.registers vy with
    | Cell.int v => Except.ok (setReg vm vx (Cell.char (Int.emod v 65536).toNat))
    | _ => Except.error Exc.typeError
  else if ctype = "byte" then
    match vm.registers vy with
    | Cell.int v =>
      if -(2 ^ 31) ≤ v ∧ v < 2 ^ 31 then
        Except.ok (setReg vm vx (Cell.int (Int.emod v 256)))
      else Except.error Exc.structError
    | _ => Except.error Exc.typeError
  else Except.error Exc.fatalError

/-- Arity wrapper for `op_IntToType`. -/
def op_IntToType_evalL (vm : VM) : List String → Except Exc VM
  | [ctype, vx, vy] => op_IntToType_eval vm ctype vx vy
  | _ => Except.error Exc.typeError

/-- Pattern of `op_RSubIntLiteral`:
`^rsub-int/lit(\d+) (.+),\s*(.+),\s*(.+)`; the first captured group is
the declared width. -/
def rsubIntLitRE : RE :=
  reSeq [ rstr "rsub-int/lit", RE.group (RE.plus (RE.cls CharClass.digit)), RE.ch ' ',
    dotPlusG, commaWs, dotPlusG, commaWs, dotPlusG ]

/-- Semantic action of `op_RSubIntLiteral`:
`register_size = int(register_size); source = vm[source];
constant = OpCode.get_int_value(constant); result = constant - source;
assert all(-(2 ** (register_size - 1)) <= x <= 2 ** (register_size - 1) - 1
for x in (source, constant, result)); vm[destination] = result`.  A
non-integer source makes the subtraction raise `TypeError`; a failing
assertion raises `AssertionError`; either way nothing is stored.  (The
translation takes the width to be at least 1, which `lit8`, `lit16` and
`lit32` satisfy; Python would compute a float bound for width 0.) -/
def op_RSubIntLiteral_eval (vm : VM) (register_size destination source constant : String) :
    Except Exc VM :=
  match pyIntStr register_size with
  | Except.error e => Except.error e
  | Except.ok n =>
    match OpCode.get_int_value constant with
    | Except.error e => Except.error e
    | Except.ok c =>
      match vm.registers source with
      | Cell.int s =>
        let result : Int := c - s
        let lo : Int := -(2 ^ (n.toNat - 1))
        let hi : Int := 2 ^ (n.toNat - 1) - 1
        if lo ≤ s ∧ s ≤ hi ∧ lo ≤ c ∧ c ≤ hi ∧ lo ≤ result ∧ result ≤ hi then
          Except.ok (setReg vm destination (Cell.int result))
        else Except.error Exc.assertionError
      | _ => Except.error Exc.typeError

/-- Arity wrapper for `op_RSubIntLiteral`. -/
def op_RSubIntLiteral_evalL (vm : VM) : List String → Except Exc VM
  | [register_size, destination, source, constant] =>
    op_RSubIntLiteral_eval vm register_size destination source constant
  | _ => Except.error Exc.typeError

/-- Pattern of `op_Invoke`: `^invoke-(?:[a-z]+) \{(.*)\},\s*(.+)`.  The
invoke kind is a non-capturing group: the handler receives only the
brace-enclosed register list and the call target, for every kind. -/
def invokeRE : RE :=
  reSeq [ rstr "invoke-", RE.plus (RE.cls CharClass.lower), RE.ch ' ', RE.ch '\x7b',
    dotStarG, RE.ch '\x7d', commaWs, dotPlusG ]

/-- Python `str.split(sep)` with a non-empty separator, on character
lists: split at every occurrence of `sep`. -/
def pySplitAux (sep : List Char) : Nat → List Char → List Char → List (List Char)
  | _, [], acc => [ acc.reverse ]
  | 0, l, acc => [ acc.reverse ++ l ]
  | fuel + 1, c :: rest, acc =>
    if sep.isPrefixOf (c :: rest) then
      acc.reverse :: pySplitAux sep fuel (List.drop (sep.length - 1) rest) []
    else
      pySplitAux sep fuel rest (c :: acc)

/-- Python `str.split(sep)` for a non-empty separator string. -/
def pySplit (s sep : String) : List String :=
  (pySplitAux sep.data s.data.length s.data []).map String.mk

/-- Semantic action of `op_Invoke`:
`args = list(map(str.strip, args.split(','))); this = args[0];
args = args[1:]; klass, method = call.split(';->');
vm.invoke(this, klass, method, args)`.  The first listed register is
always passed as the receiver, whatever the invoke kind; a call target
without exactly one `;->` separator raises `ValueError` at the
unpacking. -/
def op_Invoke_eval (vm : VM) (args call : String) : Except Exc VM :=
  let argl := (pySplit args ",").map pyStrip
  match argl with
  | this :: rest =>
    match pySplit call ";->" with
    | [klass, method] => Except.ok (vmInvoke vm this klass method rest)
    | _ => Except.error Exc.valueError
  | [] => Except.error Exc.indexError

/-- Arity wrapper for `op_Invoke`. -/
def op_Invoke_evalL (vm : VM) : List String → Except Exc VM
  | [args, call] => op_Invoke_eval vm args call
  | _ => Except.error Exc.typeError

/-- Dispatch lemma: when the pattern matches and the handler body
succeeds, `OpCode.parse` returns `True` together with the updated VM. -/
theorem parse_of_match_ok (pat : RE) (ev : VM → List String → Except Exc VM)
    (line : String) (vm : VM) (gs : List String) (vm2 : VM)
    (h : reSearch pat line = some gs) (he : ev vm (gs.map pyStrip) = Except.ok vm2) :
    OpCode.parse pat ev line vm = (true, vm2) := by
  simp [OpCode.parse, h, he]

/-- Dispatch lemma: when the pattern matches and the handler body raises,
`OpCode.parse` still returns `True`, and the exception is delivered to
`vm.exception` instead of escaping. -/
theorem parse_of_match_error (pat : RE) (ev : VM → List String → Except Exc VM)
    (line : String) (vm : VM) (gs : List String) (e : Exc)
    (h : reSearch pat line = some gs) (he : ev vm (gs.map pyStrip) = Except.error e) :
    OpCode.parse pat ev line vm = (true, vmException vm e) := by
  simp [OpCode.parse, h, he]

/-- Base VM for concrete executions: all registers zero, empty tables. -/
def vm0 : VM :=
  { registers := fun _ => Cell.int 0, pc := 0, labels := fun _ => 0,
    packed_switches := fun _ => none, exceptions := [], invocations := [] }

/-- VM with `v1 = 7` and `v2 = 0`, for the zero-divisor executions. -/
def vmC1 : VM :=
  { vm0 with registers := fun n =>
      if n = "v1" then Cell.int 7 else Cell.int 0 }

/-- C1: executing `div-int` or `rem-int` with a zero divisor register
stores nothing: the handler raises a `ZeroDivisionError` (Python's
arithmetic exception) before the destination assignment, `OpCode.parse`
catches it and forwards it to `vm.exception` (modelled as a push onto the
exception stack), the dispatch caller sees only `True`, and the registers
— in particular `vX` — are exactly those of the incoming VM. -/
theorem claim_C1_div_rem_zero (vmA vmB : VM) (dline rline vx1 vy1 vz1 vx2 vy2 vz2 : String)
    (a b : Int)
    (hd : reSearch divIntRE dline = some [vx1, vy1, vz1])
    (hya : vmA.registers (pyStrip vy1) = Cell.int a)
    (hza : vmA.registers (pyStrip vz1) = Cell.int 0)
    (hr : reSearch remIntRE rline = some [vx2, vy2, vz2])
    (hyb : vmB.registers (pyStrip vy2) = Cell.int b)
    (hzb : vmB.registers (pyStrip vz2) = Cell.int 0) :
    OpCode.parse divIntRE op_DivInt_evalL dline vmA = (true, vmException vmA Exc.zeroDivision) ∧
    OpCode.parse remIntRE op_RemInt_evalL rline vmB = (true, vmException vmB Exc.zeroDivision) := by
  constructor
  · refine parse_of_match_error _ _ _ _ _ _ hd ?_
    simp [op_DivInt_evalL, op_DivInt_eval, hya, hza, cellFloorDiv]
  · refine parse_of_match_error _ _ _ _ _ _ hr ?_
    simp [op_RemInt_evalL, op_RemInt_eval, hyb, hzb, cellFloorMod]

/-- Witness for C1 at the lines `div-int v0, v1, v2` and
`rem-int v0, v1, v2` with `v1 = 7`, `v2 = 0`. -/
theorem claim_C1_witness :
    OpCode.parse divIntRE op_DivInt_evalL "div-int v0, v1, v2" vmC1 =
      (true, vmException vmC1 Exc.zeroDivision) ∧
    OpCode.parse remIntRE op_RemInt_evalL "rem-int v0, v1, v2" vmC1 =
      (true, vmException vmC1 Exc.zeroDivision) :=
  claim_C1_div_rem_zero vmC1 vmC1 "div-int v0, v1, v2" "rem-int v0, v1, v2"
    "v0" "v1" "v2" "v0" "v1" "v2" 7 7 rfl rfl rfl rfl rfl rfl

/-- C10: for every handler pattern and line, `OpCode.parse` returns
`False` exactly when the pattern does not match; on a match it returns
`True` whether or not the semantic action succeeds, and an exception
raised by the action is caught and forwarded to `vm.exception`, never to
the dispatch caller (`parse` is a total function into `Bool × VM`). -/
theorem claim_C10_parse_dispatch (pat : RE) (ev : VM → List String → Except Exc VM)
    (line : String) (vm : VM) :
    ((OpCode.parse pat ev line vm).1 = false ↔ reSearch pat line = none) ∧
    (∀ gs, reSearch pat line = some gs →
      (OpCode.parse pat ev line vm).1 = true ∧
      (∀ e, ev vm (gs.map pyStrip) = Except.error e →
        OpCode.parse pat ev line vm = (true, vmException vm e)) ∧
      (∀ vm2, ev vm (gs.map pyStrip) = Except.ok vm2 →
        OpCode.parse pat ev line vm = (true, vm2))) := by
  constructor
  · constructor
    · intro h
      cases hr : reSearch pat line with
      | none => rfl
      | some gs =>
        exfalso
        cases he : ev vm (gs.map pyStrip) with
        | ok vm2 => simp [OpCode.parse, hr, he] at h
        | error e => simp [OpCode.parse, hr, he] at h
    · intro h
      simp [OpCode.parse, h]
  · intro gs hr
    refine ⟨?_, ?_, ?_⟩
    · cases he : ev vm (gs.map pyStrip) with
      | ok vm2 => simp [OpCode.parse, hr, he]
      | error e => simp [OpCode.parse, hr, he]
    · intro e he
      simp [OpCode.parse, hr, he]
    · intro vm2 he
      simp [OpCode.parse, hr, he]

/-- Witness for C10: a matching line whose action raises (zero divisor)
yields `True` with the exception forwarded, and a non-matching line
yields `False`. -/
theorem claim_C10_witness :
    OpCode.parse divIntRE op_DivInt_evalL "div-int v3, v1, v2" vmC1 =
      (true, vmException vmC1 Exc.zeroDivision) ∧
    (OpCode.parse divIntRE op_DivInt_evalL "mul-int v0, v1, v2" vmC1).1 = false :=
  ⟨((claim_C10_parse_dispatch divIntRE op_DivInt_evalL "div-int v3, v1, v2" vmC1).2
      [ "v3", "v1", "v2" ] rfl).2.1 Exc.zeroDivision rfl,
    (claim_C10_parse_dispatch divIntRE op_DivInt_evalL "mul-int v0, v1, v2" vmC1).1.2 rfl⟩

/-- C9 counterexample: the `op_Const` pattern `^const(?:/\d+)? …` only
allows digits after the slash, so the spec-listed form `const/high16`
does not match the handler at all. -/
theorem claim_C9_counterexample :
    reSearch constRE "const/high16 v0, 0x10000" = none := rfl

/-- C9 amended: the `op_Const` handler accepts bare `const`, `const/4`
and `const/16` (any all-digit slash suffix), parsing the literal into
`vX`; `const/high16` is rejected by the pattern. -/
theorem claim_C9_const_amended :
    OpCode.parse constRE op_Const_evalL "const v0, 0x5" vm0 =
      (true, setReg vm0 "v0" (Cell.int 5)) ∧
    OpCode.parse constRE op_Const_evalL "const/4 v1, 0x7" vm0 =
      (true, setReg vm0 "v1" (Cell.int 7)) ∧
    OpCode.parse constRE op_Const_evalL "const/16 v2, 0x100" vm0 =
      (true, setReg vm0 "v2" (Cell.int 256)) ∧
    reSearch constRE "const/high16 v0, 0x10000" = none :=
  ⟨rfl, rfl, rfl, rfl⟩

/-- VM with `v0 = 99`, `v1 = [10, 20]`, `v2 = -3`, exercising `aput` with
a negative index below `-len`. -/
def vmC2 : VM :=
  { vm0 with registers := fun n =>
      if n = "v0" then Cell.int 99
      else if n = "v1" then Cell.arr [ Cell.int 10, Cell.int 20 ]
      else if n = "v2" then Cell.int (-3)
      else Cell.int 0 }

/-- C2 counterexample: with `v2 = -3` and `len(v1) = 2` the claim's first
case applies (`vZ < len(vY)`), so the claim predicts that element `vZ` of
the array is replaced with no exception; instead Python list assignment
at an index below `-len` raises `IndexError`, which is delivered to
`vm.exception`, and the array is untouched. -/
theorem claim_C2_counterexample :
    ¬ ((OpCode.parse aputRE op_APut_evalL "aput v0, v1, v2" vmC2).2.registers "v1" =
        Cell.arr ([ Cell.int 10, Cell.int 20 ].set ((-3 : Int)).toNat (Cell.int 99)) ∧
      (OpCode.parse aputRE op_APut_evalL "aput v0, v1, v2" vmC2).2.exceptions =
        vmC2.exceptions) := by
  intro h
  have h2 := h.2
  have h3 : (OpCode.parse aputRE op_APut_evalL "aput v0, v1, v2" vmC2).2.exceptions =
      [ Exc.indexError ] := rfl
  rw [h3] at h2
  exact absurd h2 (by decide)

/-- C2 amended: for `aput` on an array register `vY` with integer index
register `vZ`: an index in `[0, len)` replaces that element; `vZ = len`
appends; `vZ > len` is silently skipped (the array is stored back
unchanged, no exception); a negative index in `[-len, 0)` follows
Python's indexing and replaces element `len + vZ`; an index below `-len`
raises `IndexError`, delivered to `vm.exception`, leaving the VM
otherwise unchanged. -/
theorem claim_C2_aput_amended (vm : VM) (line x y z : String) (l : List Cell) (i : Int)
    (h : reSearch aputRE line = some [x, y, z])
    (hy : vm.registers (pyStrip y) = Cell.arr l)
    (hz : vm.registers (pyStrip z) = Cell.int i) :
    (0 ≤ i → i < (l.length : Int) →
      OpCode.parse aputRE op_APut_evalL line vm =
        (true, setReg vm (pyStrip y)
          (Cell.arr (l.set i.toNat (vm.registers (pyStrip x)))))) ∧
    (i = (l.length : Int) →
      OpCode.parse aputRE op_APut_evalL line vm =
        (true, setReg vm (pyStrip y)
          (Cell.arr (l ++ [ vm.registers (pyStrip x) ])))) ∧
    ((l.length : Int) < i →
      OpCode.parse aputRE op_APut_evalL line vm =
        (true, setReg vm (pyStrip y) (Cell.arr l))) ∧
    (-(l.length : Int) ≤ i → i < 0 →
      OpCode.parse aputRE op_APut_evalL line vm =
        (true, setReg vm (pyStrip y)
          (Cell.arr (l.set ((l.length : Int) + i).toNat (vm.registers (pyStrip x)))))) ∧
    (i < -(l.length : Int) →
      OpCode.parse aputRE op_APut_evalL line vm =
        (true, vmException vm Exc.indexError)) := by
  refine ⟨?_, ?_, ?_, ?_, ?_⟩
  · intro h0 hlen
    refine parse_of_match_ok _ _ _ _ _ _ h ?_
    have hgt : (l.length : Int) > i := hlen
    simp [op_APut_evalL, op_APut_eval, hy, hz, pyIntOfCell, pyListSet, hgt, h0, hlen]
  · intro heq
    refine parse_of_match_ok _ _ _ _ _ _ h ?_
    have hngt : ¬ ((l.length : Int) > i) := by omega
    simp [op_APut_evalL, op_APut_eval, hy, hz, pyIntOfCell, pyListSet, hngt, heq]
  · intro hlt
    refine parse_of_match_ok _ _ _ _ _ _ h ?_
    have hngt : ¬ ((l.length : Int) > i) := by omega
    have hne : ¬ (i = (l.length : Int)) := by omega
    simp [op_APut_evalL, op_APut_eval, hy, hz, pyIntOfCell, pyListSet, hngt, hne]
  · intro hge hneg
    refine parse_of_match_ok _ _ _ _ _ _ h ?_
    have hgt : (l.length : Int) > i := by omega
    have hn0 : ¬ (0 ≤ i) := by omega
    simp [op_APut_evalL, op_APut_eval, hy, hz, pyIntOfCell, pyListSet, hgt, hn0, hge]
  · intro hlow
    refine parse_of_match_error _ _ _ _ _ _ h ?_
    have hgt : (l.length : Int) > i := by omega
    have hn0 : ¬ (0 ≤ i) := by omega
    have hnge : ¬ (-(l.length : Int) ≤ i) := by omega
    simp [op_APut_evalL, op_APut_eval, hy, hz, pyIntOfCell, pyListSet, hgt, hn0, hnge]

/-- Witness for C2 (amended) at `aput v0, v1, v2` with `v1 = [10, 20]`
and `v2 = 1`: element 1 is replaced by `v0 = 99`. -/
theorem claim_C2_witness :
    OpCode.parse aputRE op_APut_evalL "aput v0, v1, v2"
        { vmC2 with registers := fun n => if n = "v2" then Cell.int 1 else vmC2.registers n } =
      (true, setReg
        { vmC2 with registers := fun n => if n = "v2" then Cell.int 1 else vmC2.registers n }
        "v1" (Cell.arr ([ Cell.int 10, Cell.int 20 ].set (1 : Int).toNat (Cell.int 99)))) :=
  (claim_C2_aput_amended _ "aput v0, v1, v2" "v0" "v1" "v2"
      [ Cell.int 10, Cell.int 20 ] 1 rfl rfl rfl).1 (by decide) (by decide)

/-- VM for packed-switch: `v0 = 1` and a table `:T` with
`first_value = 0`, `cases = [":A", ":B"]`. -/
def vmC3 : VM :=
  { vm0 with
    registers := fun n => if n = "v0" then Cell.int 1 else Cell.int 0,
    labels := fun n => if n = ":A" then 10 else if n = ":B" then 20 else 0,
    packed_switches := fun t => if t = ":T" then some ⟨0, [ ":A", ":B" ]⟩ else none }

/-- C3: for `packed-switch vX, :L` against a resolved table `s`, with
`i = vX - s.first_value`: if `0 ≤ i < len(s.cases)` the handler jumps to
the label `s.cases[i]` via `vm.goto` (the pc becomes the line bound to
that label), and otherwise the handler returns the VM untouched, so the
pc is not altered and execution falls through. -/
theorem claim_C3_packed_switch (vm : VM) (line vx tbl : String) (sw : SwitchTable) (v : Int)
    (h : reSearch packedSwitchRE line = some [vx, tbl])
    (hreg : vm.registers (pyStrip vx) = Cell.int v)
    (hsw : vm.packed_switches (pyStrip tbl) = some sw) :
    (∀ lbl, 0 ≤ v - sw.first_value →
      sw.cases.get? (v - sw.first_value).toNat = some lbl →
      OpCode.parse packedSwitchRE op_PackedSwitch_evalL line vm = (true, vmGoto vm lbl)) ∧
    ((v - sw.first_value < 0 ∨ (sw.cases.length : Int) ≤ v - sw.first_value) →
      OpCode.parse packedSwitchRE op_PackedSwitch_evalL line vm = (true, vm)) := by
  constructor
  · intro lbl h0 hlbl
    refine parse_of_match_ok _ _ _ _ _ _ h ?_
    have hin : (v - sw.first_value).toNat < sw.cases.length := by
      have := List.get?_eq_some.mp hlbl
      exact this.1
    have hnout : ¬ ((sw.cases.length : Int) ≤ v - sw.first_value ∨ v - sw.first_value < 0) := by
      omega
    simp only [List.map, op_PackedSwitch_evalL, op_PackedSwitch_eval, hreg, hsw]
    rw [if_neg hnout, hlbl]
  · intro hout
    refine parse_of_match_ok _ _ _ _ _ _ h ?_
    have hcond : (sw.cases.length : Int) ≤ v - sw.first_value ∨ v - sw.first_value < 0 := by
      omega
    simp only [List.map, op_PackedSwitch_evalL, op_PackedSwitch_eval, hreg, hsw]
    rw [if_pos hcond]

/-- Witness for C3 at `packed-switch v0, :T` with `v0 = 1`,
`first_value = 0`, `cases = [":A", ":B"]`: the handler jumps to `:B`. -/
theorem claim_C3_witness :
    OpCode.parse packedSwitchRE op_PackedSwitch_evalL "packed-switch v0, :T" vmC3 =
      (true, vmGoto vmC3 ":B") :=
  (claim_C3_packed_switch vmC3 "packed-switch v0, :T" "v0" ":T" ⟨0, [ ":A", ":B" ]⟩ 1
      rfl rfl rfl).1 ":B" (by decide) (by decide)

/-- VM with `v1 = -1`, exercising `int-to-byte`. -/
def vmC4 : VM :=
  { vm0 with registers := fun n => if n = "v1" then Cell.int (-1) else Cell.int 0 }

/-- C4 counterexample: `int-to-byte v0, v1` with `v1 = -1` stores 255
into `v0`, not the sign-extended value `-1` the claim predicts:
`struct.pack('>i', -1)[-1]` indexes a `bytes` object and yields the
unsigned low byte. -/
theorem claim_C4_counterexample :
    ¬ ((OpCode.parse intToTypeRE op_IntToType_evalL "int-to-byte v0, v1" vmC4).2.registers
        "v0" = Cell.int (-1)) := by
  intro h
  have hc : (OpCode.parse intToTypeRE op_IntToType_evalL "int-to-byte v0, v1" vmC4).2.registers
      "v0" = Cell.int 255 := rfl
  rw [hc] at h
  injection h with h2
  exact absurd h2 (by norm_num)

/-- C4 amended: for `int-to-byte vX, vY` with an integer `vY` in the
signed 32-bit range, the value stored into `vX` is the unsigned low
byte `vY mod 256`, an integer in `[0, 255]` — no sign extension takes
place (`vY = -1` and `vY = 255` both store 255). -/
theorem claim_C4_int_to_byte_amended (vm : VM) (line vx vy : String) (v : Int)
    (h : reSearch intToTypeRE line = some [ "byte", vx, vy ])
    (hy : vm.registers (pyStrip vy) = Cell.int v)
    (hr : -(2 ^ 31) ≤ v ∧ v < 2 ^ 31) :
    OpCode.parse intToTypeRE op_IntToType_evalL line vm =
      (true, setReg vm (pyStrip vx) (Cell.int (Int.emod v 256))) ∧
    0 ≤ Int.emod v 256 ∧ Int.emod v 256 < 256 := by
  refine ⟨?_, Int.emod_nonneg v (by norm_num), Int.emod_lt_of_pos v (by norm_num)⟩
  refine parse_of_match_ok _ _ _ _ _ _ h ?_
  have hb : pyStrip "byte" = "byte" := rfl
  have hnc : ¬ (pyStrip "byte" = "char") := by decide
  simp only [List.map, op_IntToType_evalL, op_IntToType_eval]
  rw [if_neg hnc, if_pos hb]
  simp only [hy]
  rw [if_pos hr]

/-- Witness for C4 (amended) with `v1 = -1`: `v0` receives 255. -/
theorem claim_C4_witness :
    OpCode.parse intToTypeRE op_IntToType_evalL "int-to-byte v0, v1" vmC4 =
      (true, setReg vmC4 "v0" (Cell.int (Int.emod (-1) 256))) ∧
    0 ≤ Int.emod (-1 : Int) 256 ∧ Int.emod (-1 : Int) 256 < 256 :=
  claim_C4_int_to_byte_amended vmC4 "int-to-byte v0, v1" "v0" "v1" (-1)
    rfl rfl (by norm_num)

/-- VM with `v1 = [10, 20]` and `v2 = -1`, exercising `aget` with a
negative index. -/
def vmC5 : VM :=
  { vm0 with registers := fun n =>
      if n = "v1" then Cell.arr [ Cell.int 10, Cell.int 20 ]
      else if n = "v2" then Cell.int (-1)
      else Cell.int 0 }

/-- C5 counterexample: `aget v0, v1, v2` with `v1 = [10, 20]` and
`v2 = -1` — an index outside `[0, len)`, which the claim says must raise
an out-of-bounds exception and leave `vX` unchanged — instead succeeds
through Python's negative indexing: `v0` receives element 1 (the value
20) and no exception is pushed. -/
theorem claim_C5_counterexample :
    ¬ ((OpCode.parse agetRE op_Aget_evalL "aget v0, v1, v2" vmC5).2.registers "v0" =
        vmC5.registers "v0" ∧
      (OpCode.parse agetRE op_Aget_evalL "aget v0, v1, v2" vmC5).2.exceptions ≠
        vmC5.exceptions) := by
  intro h
  have h1 := h.1
  have hc : (OpCode.parse agetRE op_Aget_evalL "aget v0, v1, v2" vmC5).2.registers "v0" =
      Cell.int 20 := rfl
  have hd : vmC5.registers "v0" = Cell.int 0 := rfl
  rw [hc, hd] at h1
  injection h1 with h2
  exact absurd h2 (by norm_num)

/-- C5 amended: for `aget` on an array register `vY` and integer index
register `vZ`: an index in `[0, len)` reads that element into `vX`; a
negative index in `[-len, 0)` follows Python's indexing and reads element
`len + vZ`, with no exception; only indices at or above `len`, or below
`-len`, raise `IndexError`, delivered to `vm.exception` with the
registers left unchanged. -/
theorem claim_C5_aget_amended (vm : VM) (line x y z : String) (l : List Cell) (i : Int)
    (h : reSearch agetRE line = some [x, y, z])
    (hy : vm.registers (pyStrip y) = Cell.arr l)
    (hz : vm.registers (pyStrip z) = Cell.int i) :
    (∀ v, 0 ≤ i → l.get? i.toNat = some v →
      OpCode.parse agetRE op_Aget_evalL line vm = (true, setReg vm (pyStrip x) v)) ∧
    (∀ v, i < 0 → -(l.length : Int) ≤ i → l.get? ((l.length : Int) + i).toNat = some v →
      OpCode.parse agetRE op_Aget_evalL line vm = (true, setReg vm (pyStrip x) v)) ∧
    (((l.length : Int) ≤ i ∨ i < -(l.length : Int)) →
      OpCode.parse agetRE op_Aget_evalL line vm = (true, vmException vm Exc.indexError)) := by
  refine ⟨?_, ?_, ?_⟩
  · intro v h0 hv
    refine parse_of_match_ok _ _ _ _ _ _ h ?_
    simp only [List.map, op_Aget_evalL, op_Aget_eval, hy, hz, pyListGet]
    rw [if_pos h0, hv]
  · intro v hneg hge hv
    refine parse_of_match_ok _ _ _ _ _ _ h ?_
    have hn0 : ¬ (0 ≤ i) := by omega
    simp only [List.map, op_Aget_evalL, op_Aget_eval, hy, hz, pyListGet]
    rw [if_neg hn0, hv]
    simp only []
    rw [if_pos hge]
  · intro hout
    refine parse_of_match_error _ _ _ _ _ _ h ?_
    rcases hout with hhi | hlo
    · have h0 : 0 ≤ i := by
        rcases le_or_lt 0 i with h0 | h0
        · exact h0
        · exact absurd hhi (by omega)
      have hnone : l.get? i.toNat = none := by
        apply List.get?_eq_none.mpr
        omega
      simp only [List.map, op_Aget_evalL, op_Aget_eval, hy, hz, pyListGet]
      rw [if_pos h0, hnone]
    · have hn0 : ¬ (0 ≤ i) := by omega
      have hnge : ¬ (-(l.length : Int) ≤ i) := by omega
      simp only [List.map, op_Aget_evalL, op_Aget_eval, hy, hz, pyListGet]
      rw [if_neg hn0]
      cases hv : l.get? ((l.length : Int) + i).toNat with
      | none => rfl
      | some v => simp only [if_neg hnge]

/-- Witness for C5 (amended): the in-range read `aget v0, v1, v2` with
`v2 = 0` stores element 0. -/
theorem claim_C5_witness :
    OpCode.parse agetRE op_Aget_evalL "aget v0, v1, v2"
        { vmC5 with registers := fun n => if n = "v2" then Cell.int 0 else vmC5.registers n } =
      (true, setReg
        { vmC5 with registers := fun n => if n = "v2" then Cell.int 0 else vmC5.registers n }
        "v0" (Cell.int 10)) :=
  (claim_C5_aget_amended _ "aget v0, v1, v2" "v0" "v1" "v2"
      [ Cell.int 10, Cell.int 20 ] 0 rfl rfl rfl).1 (Cell.int 10) (by decide) rfl

/-- C6: every execution of `rsub-int/litN` (N one of 8, 16, 32) whose
semantic action completes without raising stores exactly
`literal - vY` into the destination register, and the assertion
guarantees that this result lies in the signed N-bit range
`[-2^(N-1), 2^(N-1) - 1]`. -/
theorem claim_C6_rsub_range (vm vm2 : VM) (szs dst src cst : String) (n : Int)
    (hsz : pyIntStr szs = Except.ok n)
    (_hN : n = 8 ∨ n = 16 ∨ n = 32)
    (h : op_RSubIntLiteral_eval vm szs dst src cst = Except.ok vm2) :
    ∃ s c : Int, vm.registers src = Cell.int s ∧ OpCode.get_int_value cst = Except.ok c ∧
      vm2 = setReg vm dst (Cell.int (c - s)) ∧
      -(2 ^ (n.toNat - 1)) ≤ c - s ∧ c - s ≤ 2 ^ (n.toNat - 1) - 1 := by
  rw [op_RSubIntLiteral_eval, hsz] at h
  cases hc : OpCode.get_int_value cst with
  | error e => rw [hc] at h; exact absurd h (by simp)
  | ok c =>
    rw [hc] at h
    cases hs : vm.registers src with
    | int s =>
      rw [hs] at h
      simp only [] at h
      by_cases hcond : -(2 ^ (n.toNat - 1)) ≤ s ∧ s ≤ 2 ^ (n.toNat - 1) - 1 ∧
          -(2 ^ (n.toNat - 1)) ≤ c ∧ c ≤ 2 ^ (n.toNat - 1) - 1 ∧
          -(2 ^ (n.toNat - 1)) ≤ c - s ∧ c - s ≤ 2 ^ (n.toNat - 1) - 1
      · rw [if_pos hcond] at h
        injection h with h2
        exact ⟨s, c, rfl, rfl, h2.symm, hcond.2.2.2.2.1, hcond.2.2.2.2.2⟩
      · rw [if_neg hcond] at h
        exact absurd h (by simp)
    | str s2 => rw [hs] at h; exact absurd h (by simp)
    | char s2 => rw [hs] at h; exact absurd h (by simp)
    | arr s2 => rw [hs] at h; exact absurd h (by simp)

/-- VM with `v1 = 2`, for the rsub witness. -/
def vmC6 : VM :=
  { vm0 with registers := fun n => if n = "v1" then Cell.int 2 else Cell.int 0 }

/-- Witness for C6: `rsub-int/lit8 v2, v1, 0x3` with `v1 = 2` completes
and stores `3 - 2 = 1`, inside the signed 8-bit range. -/
theorem claim_C6_witness :
    ∃ s c : Int, vmC6.registers "v1" = Cell.int s ∧
      OpCode.get_int_value "0x3" = Except.ok c ∧
      setReg vmC6 "v2" (Cell.int 1) = setReg vmC6 "v2" (Cell.int (c - s)) ∧
      -(2 ^ ((8 : Int).toNat - 1)) ≤ c - s ∧ c - s ≤ 2 ^ ((8 : Int).toNat - 1) - 1 :=
  claim_C6_rsub_range vmC6 (setReg vmC6 "v2" (Cell.int 1)) "8" "v2" "v1" "0x3" 8
    rfl (Or.inl rfl) rfl

/-- VM for the invoke executions. -/
def vmC7 : VM := vm0

/-- C7 counterexample: on `invoke-static {v0, v1}, Lfoo;->bar(II)V` the
handler still peels the first listed register off as the receiver — the
invoke kind is a non-capturing group in the pattern, so the action cannot
distinguish static calls — and the bridge receives `this = v0` with
arguments `[v1]`; it never receives all listed registers as arguments. -/
theorem claim_C7_counterexample :
    ¬ ∃ t k m, (OpCode.parse invokeRE op_Invoke_evalL
        "invoke-static {v0, v1}, Lfoo;->bar(II)V" vmC7).2.invocations =
      [ (t, k, m, [ "v0", "v1" ]) ] := by
  rintro ⟨t, k, m, hm⟩
  have hv : (OpCode.parse invokeRE op_Invoke_evalL
      "invoke-static {v0, v1}, Lfoo;->bar(II)V" vmC7).2.invocations =
      [ ("v0", "Lfoo", "bar(II)V", [ "v1" ]) ] := rfl
  rw [hv] at hm
  simp at hm

/-- C7 amended: for every `invoke-<kind>` line the handler splits the
brace-enclosed register list and passes its first entry to the bridge as
the receiver and the remainder as arguments, for static and non-static
kinds alike (the kind is not captured by the pattern, so `invoke-static`
receives the same treatment). -/
theorem claim_C7_invoke_amended (vm : VM) (line a c klass method this : String)
    (rest : List String)
    (h : reSearch invokeRE line = some [a, c])
    (hsplit : pySplit (pyStrip c) ";->" = [klass, method])
    (hargs : (pySplit (pyStrip a) ",").map pyStrip = this :: rest) :
    OpCode.parse invokeRE op_Invoke_evalL line vm =
      (true, vmInvoke vm this klass method rest) := by
  refine parse_of_match_ok _ _ _ _ _ _ h ?_
  simp only [List.map, op_Invoke_evalL, op_Invoke_eval, hsplit, hargs]

/-- Witness for C7 (amended) at the static call
`invoke-static {v0, v1}, Lfoo;->bar(II)V`: the bridge receives
`this = v0`, class `Lfoo`, method `bar(II)V`, arguments `[v1]`. -/
theorem claim_C7_witness :
    OpCode.parse invokeRE op_Invoke_evalL
        "invoke-static {v0, v1}, Lfoo;->bar(II)V" vmC7 =
      (true, vmInvoke vmC7 "v0" "Lfoo" "bar(II)V" [ "v1" ]) :=
  claim_C7_invoke_amended vmC7 "invoke-static {v0, v1}, Lfoo;->bar(II)V"
    "v0, v1" "Lfoo;->bar(II)V" "Lfoo" "bar(II)V" "v0" [ "v1" ] rfl rfl rfl

/-- C8 counterexample: the byte-suffixed literal `0x1234t` parses to
4660, far outside the signed 8-bit range: `get_int_value` strips the
suffix but never truncates the value to the implied width. -/
theorem claim_C8_counterexample :
    ¬ (∀ r : Int, OpCode.get_int_value "0x1234t" = Except.ok r → -128 ≤ r ∧ r ≤ 127) := by
  intro hall
  have hr := hall 4660 rfl
  exact absurd hr.2 (by norm_num)

/-- Helper: `rstrip(c)` of a string extended by its strip character
strips down to `rstrip(c)` of the original. -/
theorem pyRstripChar_append_self (l : List Char) (c : Char) :
    pyRstripChar (l ++ [ c ]) c = pyRstripChar l c := by
  simp [pyRstripChar, List.dropWhile]

/-- C8 amended: a trailing `t` (byte) or `s` (short) suffix is stripped
before parsing — appending `t` to any literal text never changes the
parse — but the parsed value is returned unchanged at every width: no
truncation ever happens, so a byte-suffixed literal can parse far outside
the 8-bit range (`0x1234t` parses to 4660, while `0x12s` parses
to 18). -/
theorem claim_C8_literal_amended :
    (∀ s : String, OpCode.get_int_value (s ++ "t") = OpCode.get_int_value s) ∧
    OpCode.get_int_value "0x12s" = Except.ok 18 ∧
    OpCode.get_int_value "0x1234t" = Except.ok 4660 := by
  refine ⟨?_, rfl, rfl⟩
  intro s
  have hd : (s ++ "t").data = s.data ++ [ 't' ] := by
    rw [String.data_append]
  rw [OpCode.get_int_value, OpCode.get_int_value, hd, pyRstripChar_append_self]

/-- Witness for C8 (amended), instantiating the stripping property at the
literal text `0x7f`. -/
theorem claim_C8_witness :
    OpCode.get_int_value ("0x7f" ++ "t") = OpCode.get_int_value "0x7f" :=
  claim_C8_literal_amended.1 "0x7f"

end SmaliEmu
